import Mathlib

/-!
Verification development for the vod_scraper content-resolution engine.

The definitions below are a shallow embedding of the code in
`src/api/catalog/matching_engine.py`, `src/api/catalog/models.py` and
`src/scraper/pipelines.py`.  Python strings are modelled as `String`
(ASCII behaviour of `str.lower` / `\w`; the titles exercised by the
theorems are ASCII except for stored native titles, which are only ever
compared for equality/substring).  Python floats are modelled as `ℚ`.
The Django ORM is modelled as explicit list-backed state with the two
uniqueness constraints declared in `models.py`:
`unique_title_year` on `(title, year)` for `Movie` and
`unique_together ('platform', 'source_id')` for `Source`.
-/

namespace VodScraper

/-- Model of Python `str.lower()` (ASCII range), character by character.
`String.toLower` itself is avoided because its recursor does not reduce
inside the kernel. -/
def pyLower (s : String) : String :=
  String.mk (s.toList.map Char.toLower)

/-- Model of Python `str.strip()`: drop leading and trailing whitespace. -/
def pyStrip (s : String) : String :=
  String.mk (((s.toList.dropWhile Char.isWhitespace).reverse.dropWhile Char.isWhitespace).reverse)

/-- Model of a Python `\w` word character (ASCII range: letters, digits, underscore). -/
def isWordChar (c : Char) : Bool :=
  c.isAlphanum || c == '_'

/-- Helper for `splitWs`: accumulate the current (reversed) token while scanning. -/
def splitWsAux : List Char → List Char → List String
  | [], acc => if acc.isEmpty then [] else [String.mk acc.reverse]
  | c :: rest, acc =>
    if c.isWhitespace then
      if acc.isEmpty then splitWsAux rest []
      else String.mk acc.reverse :: splitWsAux rest []
    else splitWsAux rest (c :: acc)

/-- Model of Python `str.split()` with no argument: maximal runs of
non-whitespace characters, empty tokens dropped. -/
def splitWs (l : List Char) : List String :=
  splitWsAux l []

/-- Model of `" ".join(ws)`: the tokens separated by single spaces. -/
def joinSpace : List String → String
  | [] => ""
  | [w] => w
  | w :: v :: rest => w ++ " " ++ joinSpace (v :: rest)

/-- The stop-word set `EnhancedContentMatcher.common_words` (matching_engine.py line 111). -/
def common_words : List String :=
  ["the", "a", "an", "and", "or", "but", "in", "on", "at", "to", "for", "of", "with", "by"]

/-- Shallow embedding of `EnhancedContentMatcher.normalize_title`
(matching_engine.py lines 255-262):

    if not title: return ""
    title = title.lower().strip()
    title = re.sub(r"[^\w\s]", " ", title)      -- replace, NOT delete
    title = " ".join(title.split())
    words = [word for word in title.split() if word not in self.common_words]
    return " ".join(words)

Note `re.sub` replaces each character that is neither a word character nor
whitespace with a single space; it does not delete it. -/
def normalize_title (title : String) : String :=
  if title = "" then ""
  else
    let lowered := pyStrip (pyLower title)
    let subbed := lowered.toList.map (fun c => if isWordChar c || c.isWhitespace then c else ' ')
    let collapsed := joinSpace (splitWs subbed)
    let words := (splitWs collapsed.toList).filter (fun w => !(common_words.contains w))
    joinSpace words

/-- Modelled from the spec: §4.1 describes the normalizer as "strip all
characters that are not word characters or whitespace", i.e. the offending
characters are deleted instead of being replaced by a space.  Used only to
compare the spec's wording against `normalize_title`. -/
def normalize_title_specStripping (title : String) : String :=
  if title = "" then ""
  else
    let lowered := pyStrip (pyLower title)
    let stripped := lowered.toList.filter (fun c => isWordChar c || c.isWhitespace)
    let collapsed := joinSpace (splitWs stripped)
    let words := (splitWs collapsed.toList).filter (fun w => !(common_words.contains w))
    joinSpace words

/-!
Model of `difflib.SequenceMatcher(None, a, b).ratio()` (imported by
matching_engine.py line 4 and used in `similarity_score`).  Per the
library's documentation `ratio` is `2.0 * M / T` where `T` is the total
number of characters in both sequences and `M` is the number of matched
characters: the sum of the sizes of the matching blocks produced by
recursively taking the longest matching block (the one that, among all
maximal matching blocks, starts earliest in `a` and then earliest in `b`)
and recursing on the pieces to its left and to its right.  The `autojunk`
popularity heuristic only fires for sequences of 200 or more characters
and is not modelled. -/

/-- Length of the common run of equal characters at the head of two lists. -/
def commonRunLen : List Char → List Char → Nat
  | a :: as, b :: bs => if a = b then commonRunLen as bs + 1 else 0
  | _, _ => 0

/-- Length of the matching run starting at positions `i` of `a` and `j` of `b`,
confined to `a[..ahi]` and `b[..bhi]`. -/
def runLen (a b : List Char) (i j ahi bhi : Nat) : Nat :=
  commonRunLen ((a.take ahi).drop i) ((b.take bhi).drop j)

/-- One step of the longest-match scan: replace the current best block only
on a strictly longer run, so the earliest (in `a`, then in `b`) maximal
block wins — the tie-break documented for `find_longest_match`. -/
def lmStep (a b : List Char) (ahi bhi : Nat) (best : Nat × Nat × Nat) (p : Nat × Nat) :
    Nat × Nat × Nat :=
  let k := runLen a b p.1 p.2 ahi bhi
  if best.2.2 < k then (p.1, p.2, k) else best

/-- Model of `SequenceMatcher.find_longest_match` on the region
`a[alo:ahi] × b[blo:bhi]` (no junk): scan candidate start pairs in
lexicographic order, keeping the first longest run. -/
def findLongestMatch (a b : List Char) (alo ahi blo bhi : Nat) : Nat × Nat × Nat :=
  ((List.range' alo (ahi - alo)).flatMap
      (fun i => (List.range' blo (bhi - blo)).map (fun j => (i, j)))).foldl
    (lmStep a b ahi bhi) (alo, blo, 0)

/-- Model of `SequenceMatcher.get_matching_blocks` restricted to the region
`a[alo:ahi] × b[blo:bhi]`: take the longest match, recurse left and right.
The fuel argument starts at `ahi - alo`, which bounds the recursion depth
because each recursive call shrinks the `a`-region by at least one. -/
def matchingBlocksAux (a b : List Char) : Nat → Nat → Nat → Nat → Nat → List (Nat × Nat × Nat)
  | 0, _, _, _, _ => []
  | fuel + 1, alo, ahi, blo, bhi =>
    let m := findLongestMatch a b alo ahi blo bhi
    if m.2.2 = 0 then []
    else
      matchingBlocksAux a b fuel alo m.1 blo m.2.1 ++
        m :: matchingBlocksAux a b fuel (m.1 + m.2.2) ahi (m.2.1 + m.2.2) bhi

/-- The matching blocks of two character lists (the terminating dummy block
`(len(a), len(b), 0)` that difflib appends carries no matched characters and
is omitted). -/
def matchingBlocks (a b : List Char) : List (Nat × Nat × Nat) :=
  matchingBlocksAux a b a.length 0 a.length 0 b.length

/-- Total number of matched characters `M`. -/
def blocksSum (l : List (Nat × Nat × Nat)) : Nat :=
  (l.map (fun m => m.2.2)).sum

/-- Model of `SequenceMatcher.ratio()`: `2.0 * M / T`, and `1.0` when both
sequences are empty (difflib's `_calculate_ratio`). -/
def seqMatchScore (a b : List Char) : ℚ :=
  if a.length + b.length = 0 then 1
  else 2 * (blocksSum (matchingBlocks a b) : ℚ) / ((a.length : ℚ) + (b.length : ℚ))

/-!
Model of `jellyfish.jaro_winkler_similarity` (matching_engine.py line 276):
the classical Jaro similarity — matches inside the search window, then
transpositions among the flagged characters — followed by the Winkler
common-prefix adjustment applied when the Jaro weight exceeds `0.7`. -/

/-- First index `j` in `[low, hi]` such that `yang[j]` is unflagged and equals
`c` (the inner loop of the Jaro matching phase).  The flag default `true`
makes out-of-range positions unmatchable. -/
def findMatchIdx (yang : List Char) (gf : List Bool) (c : Char) (low hi : Nat) : Option Nat :=
  (List.range' low (hi + 1 - low)).find?
    (fun j => !(gf.getD j true) && (yang.getD j ' ' == c) && decide (j < yang.length))

/-- The Jaro matching phase: scan `ying` left to right, flagging for each
character the first matchable position of `yang` inside the search window.
Returns the `ying` flags, the `yang` flags and the number of matches. -/
def jaroScanAux (yang : List Char) (sr : Nat) :
    List Char → Nat → List Bool → Nat → List Bool × List Bool × Nat
  | [], _, gf, common => ([], gf, common)
  | c :: rest, i, gf, common =>
    let low := i - sr
    let hi := min (i + sr) (yang.length - 1)
    match findMatchIdx yang gf c low hi with
    | some j =>
      let r := jaroScanAux yang sr rest (i + 1) (gf.set j true) (common + 1)
      (true :: r.1, r.2.1, r.2.2)
    | none =>
      let r := jaroScanAux yang sr rest (i + 1) gf common
      (false :: r.1, r.2.1, r.2.2)

/-- First flagged index of `gf` at or after `k` (the transposition-phase
inner loop). -/
def findFlagged (gf : List Bool) (k : Nat) : Option Nat :=
  (List.range' k (gf.length - k)).find? (fun j => gf.getD j false)

/-- The Jaro transposition phase: walk the flagged characters of `ying` and
of `yang` in parallel and count the positions where they disagree. -/
def transLoop (yang : List Char) (gf : List Bool) : List (Char × Bool) → Nat → Nat → Nat
  | [], _, t => t
  | (c, f) :: rest, k, t =>
    if f then
      match findFlagged gf k with
      | some j => transLoop yang gf rest (j + 1) (t + if c ≠ yang.getD j c then 1 else 0)
      | none => transLoop yang gf rest k t
    else transLoop yang gf rest k t

/-- The Jaro search range `max(len1, len2) // 2 - 1`, floored at zero. -/
def jaroSearchRange (ying yang : List Char) : Nat :=
  max ying.length yang.length / 2 - 1

/-- The full matching phase starting from all-unflagged `yang`. -/
def jaroScan (ying yang : List Char) : List Bool × List Bool × Nat :=
  jaroScanAux yang (jaroSearchRange ying yang) ying 0
    (List.replicate yang.length false) 0

/-- The number of common (matched) characters. -/
def jaroCommon (ying yang : List Char) : Nat :=
  (jaroScan ying yang).2.2

/-- The transposition count: half the number of disagreeing flagged pairs. -/
def jaroTrans (ying yang : List Char) : Nat :=
  transLoop yang (jaroScan ying yang).2.1 (ying.zip (jaroScan ying yang).1) 0 0 / 2

/-- The Jaro weight
`(common/len1 + common/len2 + (common - trans)/common) / 3`. -/
def jaroWeight (ying yang : List Char) : ℚ :=
  ((jaroCommon ying yang : ℚ) / (ying.length : ℚ) +
      (jaroCommon ying yang : ℚ) / (yang.length : ℚ) +
      ((jaroCommon ying yang : ℚ) - (jaroTrans ying yang : ℚ)) /
        (jaroCommon ying yang : ℚ)) / 3

/-- The Winkler common-prefix length, capped at `min(min_len, 4)`. -/
def winklerPrefixLen (ying yang : List Char) : Nat :=
  commonRunLen (ying.take (min (min ying.length yang.length) 4))
    (yang.take (min (min ying.length yang.length) 4))

/-- Model of `jellyfish.jaro_winkler_similarity` on character lists:
`0.0` when either input is empty or no characters match; otherwise the
Jaro weight, adjusted by the common-prefix bonus
`prefix * 0.1 * (1 - weight)` when the weight exceeds `0.7`. -/
def jaroWinkler (ying yang : List Char) : ℚ :=
  if ying.length = 0 ∨ yang.length = 0 then 0
  else if jaroCommon ying yang = 0 then 0
  else if 7 / 10 < jaroWeight ying yang then
    jaroWeight ying yang +
      (winklerPrefixLen ying yang : ℚ) * (1 / 10) * (1 - jaroWeight ying yang)
  else jaroWeight ying yang

/-- Shallow embedding of `EnhancedContentMatcher.similarity_score`
(matching_engine.py lines 264-278): normalize both inputs; `0.0` if either
normalized form is falsy; `1.0` on normalized equality; otherwise the
maximum of the `SequenceMatcher` ratio and the Jaro-Winkler similarity of
the normalized forms. -/
def similarity_score (title1 title2 : String) : ℚ :=
  let normalized1 := normalize_title title1
  let normalized2 := normalize_title title2
  if normalized1 = "" ∨ normalized2 = "" then 0
  else if normalized1 = normalized2 then 1
  else max (seqMatchScore normalized1.toList normalized2.toList)
    (jaroWinkler normalized1.toList normalized2.toList)

/-!
Data model, from `src/api/catalog/models.py`, taken exactly as declared:
`Movie(title, year, type)` — there is **no** `title_en` column, although
matching_engine.py reads, writes and filters on one.  Those accesses fail
at run time and the embedding models the failures: the exact strategy's
`title_en__iexact` filter raises `FieldError` (caught to `None`), the
fuzzy loop's `item.title_en` raises `AttributeError` (caught to `None`),
and `_create_movie`'s `Movie.objects.create(title_en=...)` raises
`TypeError` before any SQL (uncaught).  Genres, credits and timestamps
play no role in any claim and are omitted.  `id` is the auto primary key;
list order models insertion order. -/

structure Movie where
  id : Nat
  title : String
  year : Int
  type : String
deriving DecidableEq

structure Source where
  id : Nat
  movie_id : Nat
  platform : String
  source_id : String
  url : String
  raw_payload : Option String
deriving DecidableEq

structure DB where
  movies : List Movie
  sources : List Source
  nextMovieId : Nat
  nextSourceId : Nat
deriving DecidableEq

def emptyDB : DB := ⟨[], [], 0, 0⟩

instance {ε α : Type} [DecidableEq ε] [DecidableEq α] : DecidableEq (Except ε α) := fun x y =>
  match x, y with
  | .error a, .error b =>
    if h : a = b then .isTrue (by rw [h]) else .isFalse (by simp [h])
  | .ok a, .ok b =>
    if h : a = b then .isTrue (by rw [h]) else .isFalse (by simp [h])
  | .error _, .ok _ => .isFalse (by simp)
  | .ok _, .error _ => .isFalse (by simp)

/-- Errors surfaced by the ORM model: `integrityError` is a
uniqueness-constraint violation on insert (`unique_title_year` on movies,
`unique_together ('platform', 'source_id')` on sources); `typeError` is
Django's `TypeError` for an invalid keyword argument in model
construction (`Movie.objects.create(title_en=...)` with no `title_en`
field), raised before any SQL executes. -/
inductive DbError where
  | integrityError
  | typeError
deriving DecidableEq

/-- Django `__iexact`: case-insensitive equality. -/
def iexact (field value : String) : Bool :=
  pyLower field == pyLower value

/-- Whether `needle` starts `hay`. -/
def startsWithSeq : List Char → List Char → Bool
  | [], _ => true
  | _ :: _, [] => false
  | n :: ns, h :: hs => n == h && startsWithSeq ns hs

/-- Whether `needle` occurs contiguously in `hay`. -/
def containsSeq (needle : List Char) : List Char → Bool
  | [] => startsWithSeq needle []
  | h :: hs => startsWithSeq needle (h :: hs) || containsSeq needle hs

/-- Django `__icontains`: case-insensitive substring test. -/
def icontains (field value : String) : Bool :=
  containsSeq (pyLower value).toList (pyLower field).toList

/-- The static variation table `EnhancedContentMatcher.title_variations`
(matching_engine.py lines 113-117). -/
def title_variations : List (String × List String) :=
  [("متری شیش و نیم", ["metri shish o nim", "metri shesh o nim", "metri 6.5"]),
   ("شقایق", ["shaghayegh"]),
   ("خانه پدری", ["khane pedari", "khaneh pedari", "father's house"])]

/-- Shallow embedding of `EnhancedContentMatcher._match_by_exact_criteria`
(matching_engine.py lines 152-176).  After the `if not release_year`
guard (Python falsiness of the int, modelled as `release_year = 0`) the
source computes `normalized_title` — always from `title_en`, since the
condition `title_en != '' or title_en is not None` holds for every value
— and then runs

    Movie.objects.filter(Q(year=.., type=..) &
      (Q(title__iexact=..) | Q(title_en__iexact=..))).first()

inside `try/except Exception`.  `filter` resolves the field names eagerly
and raises `FieldError` on `title_en`, which `models.py` does not define;
the `except` logs and returns `None`.  The strategy therefore never
matches any record. -/
def match_by_exact_criteria (db : DB) (title title_en : String) (release_year : Int)
    (movie_type : String) : Option Movie :=
  if release_year = 0 then none
  else none

/-- Shallow embedding of `EnhancedContentMatcher._match_by_fuzzy_logic`
(matching_engine.py lines 178-211).  After the `if not release_year`
guard, `Movie.objects.filter(year__gte=.., year__lte=.., type=..)[:100]`
uses only real columns; but the first loop iteration reads
`item.title_en`, which raises `AttributeError` inside the
`try/except Exception`, so the function returns `None` — and with an
empty candidate set the loop body never runs and `best_match` is already
`None`.  The strategy therefore never scores a candidate and never
matches. -/
def match_by_fuzzy_logic (db : DB) (title title_en : String) (release_year : Int)
    (movie_type : String) : Option Movie :=
  if release_year = 0 then none
  else none

/-- The loop body of the variation strategy: for each `(base, variations)`
entry, if the normalized title is one of the registered variations, run
`Movie.objects.get(title__icontains=base, year=.., type=..)`; both
`DoesNotExist` (no row) and `MultipleObjectsReturned` (several rows) are
caught and the loop continues with the next entry. -/
def variationLookup (db : DB) (normalized_title : String) (release_year : Int)
    (movie_type : String) : List (String × List String) → Option Movie
  | [] => none
  | (base, variations) :: rest =>
    if variations.contains normalized_title then
      match db.movies.filter (fun m =>
          icontains m.title base && m.year == release_year && m.type == movie_type) with
      | [m] => some m
      | _ => variationLookup db normalized_title release_year movie_type rest
    else variationLookup db normalized_title release_year movie_type rest

/-- Shallow embedding of `EnhancedContentMatcher._match_by_title_variations`
(matching_engine.py lines 213-234), with the same always-true conditional
selecting `title_en` for normalization. -/
def match_by_title_variations (db : DB) (title title_en : String) (release_year : Int)
    (movie_type : String) : Option Movie :=
  if release_year = 0 then none
  else
    let normalized_title :=
      if title_en ≠ "" ∨ True then normalize_title title_en else normalize_title title
    variationLookup db normalized_title release_year movie_type title_variations

/-- Shallow embedding of `EnhancedContentMatcher._create_movie`
(matching_engine.py lines 236-252): the body runs
`Movie.objects.create(title=.., title_en=.., year=.., type=..)`, and the
`title_en` keyword makes model construction raise
`TypeError ('title_en' is an invalid keyword argument)` before any SQL.
Nothing is inserted, the `unique_title_year` constraint is never reached
on this path, and the error propagates — neither `_create_movie` nor
`find_or_get_movie` catches anything. -/
def create_movie (db : DB) (title title_en : String) (release_year : Int)
    (movie_type : String) : Except DbError (Movie × DB) :=
  .error .typeError

/-- Shallow embedding of `EnhancedContentMatcher.find_or_get_movie`
(matching_engine.py lines 119-150): run the three strategies in order,
short-circuiting on the first hit (`created = False`); only when all miss,
create a new movie (`created = True`).  No exception from `_create_movie`
is caught. -/
def find_or_get_movie (db : DB) (title title_en : String) (release_year : Int)
    (movie_type : String) : Except DbError (Movie × Bool × DB) :=
  match match_by_exact_criteria db title title_en release_year movie_type with
  | some m => .ok (m, false, db)
  | none =>
    match match_by_fuzzy_logic db title title_en release_year movie_type with
    | some m => .ok (m, false, db)
    | none =>
      match match_by_title_variations db title title_en release_year movie_type with
      | some m => .ok (m, false, db)
      | none =>
        match create_movie db title title_en release_year movie_type with
        | .error e => .error e
        | .ok (m, db') => .ok (m, true, db')

/-- Shallow embedding of `ContentManager._create_source`
(matching_engine.py lines 64-87): despite its docstring ("Upsert source
mapping - creates if not exists, updates if exists") the body runs
`Source.objects.create` unconditionally — the `defaults=` upsert block is
commented out — so an existing `(platform, source_id)` row raises
`IntegrityError`. -/
def create_source (db : DB) (movie_id : Nat) (platform source_id url : String)
    (raw_payload : Option String) : Except DbError (Source × DB) :=
  if db.sources.any (fun s => s.platform == platform && s.source_id == source_id) then
    .error .integrityError
  else
    let s : Source := ⟨db.nextSourceId, movie_id, platform, source_id, url, raw_payload⟩
    .ok (s, { db with sources := db.sources ++ [s], nextSourceId := db.nextSourceId + 1 })

/-- Shallow embedding of `ContentManager.process_scraped_content`
(matching_engine.py lines 27-62): inside one `transaction.atomic` block,
find-or-create the movie, then always insert the source mapping; any error
rolls the whole transaction back (no new state escapes). -/
def process_scraped_content (db : DB) (title title_en : String) (release_year : Int)
    (movie_type platform source_id url : String) (raw_payload : Option String) :
    Except DbError (Movie × Bool × Source × DB) :=
  match find_or_get_movie db title title_en release_year movie_type with
  | .error e => .error e
  | .ok (movie, content_created, db1) =>
    match create_source db1 movie.id platform source_id url raw_payload with
    | .error e => .error e
    | .ok (src, db2) => .ok (movie, content_created, src, db2)

/-!
The Redis match cache and the scraper pipeline, from
`src/scraper/pipelines.py`.  The cache is a key-value map (TTLs are not
modelled; no claim depends on expiry). -/

/-- The match cache as an association list (`redis.setex` keyed map). -/
abbrev Cache := List (String × String)

/-- Model of `redis.setex key _ value`: overwrite the binding for `key`. -/
def cacheSet (c : Cache) (key value : String) : Cache :=
  (c.filter (fun p => p.1 ≠ key)) ++ [(key, value)]

/-- Combined system state: the relational store plus the Redis cache.
`EnhancedContentMatcher.__init__` constructs a `RedisClient` but the code
of `ContentManager`/`EnhancedContentMatcher` never invokes any cache
operation, so the engine-side resolution acts on `db` alone. -/
structure SysState where
  db : DB
  cache : Cache
deriving DecidableEq

/-- `ContentManager.process_scraped_content` lifted to the combined state:
the body (matching_engine.py lines 27-62) contains no Redis call, so the
cache component passes through untouched. -/
def process_scraped_content_sys (s : SysState) (title title_en : String) (release_year : Int)
    (movie_type platform source_id url : String) (raw_payload : Option String) :
    Except DbError (Movie × Bool × Source × SysState) :=
  match process_scraped_content s.db title title_en release_year movie_type platform
      source_id url raw_payload with
  | .error e => .error e
  | .ok (m, c, src, db') => .ok (m, c, src, ⟨db', s.cache⟩)

/-- Model of the scraped item fields read by
`PostgreSQLPipeline._find_or_create_item_with_matching` (`adapter.get`):
absent fields are `none`.  The `genres` field is omitted (no claim touches
genre processing). -/
structure Adapter where
  title : String
  release_year : Option Int
  year : Option Int
  type : Option String
  source_id : Option String
  url : String

/-- Python `a or b` on optional integers: `a` unless it is falsy
(`None` or `0`). -/
def pyOrIntOpt (a b : Option Int) : Option Int :=
  match a with
  | some v => if v = 0 then b else some v
  | none => b

/-- Pipeline-side errors: `ValueError` from the validation check, or a
database error from the movie insert. -/
inductive PipeError where
  | valueError
  | dbError (e : DbError)
deriving DecidableEq

/-- The pipeline's movie insert (pipelines.py lines 143-147):
`Movie.objects.create(title=.., year=.., type=..)` passes only columns
that `models.py` declares, so it is a plain insert under the
`unique_title_year` constraint. -/
def create_movie_pipeline (db : DB) (title : String) (year : Int) (movie_type : String) :
    Except DbError (Movie × DB) :=
  if db.movies.any (fun m => m.title == title && m.year == year) then
    .error .integrityError
  else
    let m : Movie := ⟨db.nextMovieId, title, year, movie_type⟩
    .ok (m, { db with movies := db.movies ++ [m], nextMovieId := db.nextMovieId + 1 })

/-- Shallow embedding of `PostgreSQLPipeline._find_or_create_item_with_matching`
(pipelines.py lines 124-171).  The matcher it calls,
`ContentMatcher.find_matching_item`, is absent from the repository
(matching_engine.py defines no `ContentMatcher`), so it is taken as a
parameter and the theorems quantify over it.  Validation: `title` is
stripped and `year = adapter.get('release_year') or adapter.get('year')`;
`if not title or not year: raise ValueError`.  On a match the function
returns the matched item with the cache untouched; only on the creation
path does it write the cache key `match:<title>:<year>`.  Genre handling
is omitted. -/
def find_or_create_item_with_matching
    (find_matching_item : String → Int → String → Option String → Option Movie)
    (db : DB) (cache : Cache) (adapter : Adapter) (platform : String) :
    Except PipeError (Movie × DB × Cache) :=
  let title := pyStrip adapter.title
  match pyOrIntOpt adapter.release_year adapter.year with
  | none => .error .valueError
  | some year =>
    if title = "" ∨ year = 0 then .error .valueError
    else
      match find_matching_item title year platform adapter.source_id with
      | some item => .ok (item, db, cache)
      | none =>
        match create_movie_pipeline db title year (adapter.type.getD "movie") with
        | .error e => .error (.dbError e)
        | .ok (movie, db') =>
          .ok (movie, db', cacheSet cache ("match:" ++ title ++ ":" ++ toString year)
            (toString movie.id))

/-!
Bounds for the similarity metrics: both lie in `[0, 1]`. -/

theorem commonRunLen_le_left : ∀ a b : List Char, commonRunLen a b ≤ a.length := by
  intro a
  induction a with
  | nil => intro b; cases b <;> simp [commonRunLen]
  | cons x xs ih =>
    intro b
    cases b with
    | nil => simp [commonRunLen]
    | cons y ys =>
      by_cases h : x = y
      · simpa [commonRunLen, h] using ih ys
      · simp [commonRunLen, h]

theorem commonRunLen_le_right : ∀ a b : List Char, commonRunLen a b ≤ b.length := by
  intro a
  induction a with
  | nil => intro b; cases b <;> simp [commonRunLen]
  | cons x xs ih =>
    intro b
    cases b with
    | nil => simp [commonRunLen]
    | cons y ys =>
      by_cases h : x = y
      · simpa [commonRunLen, h] using ih ys
      · simp [commonRunLen, h]

theorem runLen_le_a (a b : List Char) (i j ahi bhi : Nat) :
    runLen a b i j ahi bhi ≤ ahi - i := by
  have h := commonRunLen_le_left ((a.take ahi).drop i) ((b.take bhi).drop j)
  have hl : ((a.take ahi).drop i).length ≤ ahi - i := by
    simp only [List.length_drop, List.length_take]
    omega
  exact le_trans h hl

theorem runLen_le_b (a b : List Char) (i j ahi bhi : Nat) :
    runLen a b i j ahi bhi ≤ bhi - j := by
  have h := commonRunLen_le_right ((a.take ahi).drop i) ((b.take bhi).drop j)
  have hl : ((b.take bhi).drop j).length ≤ bhi - j := by
    simp only [List.length_drop, List.length_take]
    omega
  exact le_trans h hl

/-- Any block returned by `findLongestMatch` is either empty or lies inside
the region it was asked about. -/
theorem findLongestMatch_inv (a b : List Char) (alo ahi blo bhi : Nat) :
    ∀ i j k, findLongestMatch a b alo ahi blo bhi = (i, j, k) →
      k = 0 ∨ (alo ≤ i ∧ i + k ≤ ahi ∧ blo ≤ j ∧ j + k ≤ bhi) := by
  have H : (fun p : Nat × Nat × Nat => p.2.2 = 0 ∨
      (alo ≤ p.1 ∧ p.1 + p.2.2 ≤ ahi ∧ blo ≤ p.2.1 ∧ p.2.1 + p.2.2 ≤ bhi))
      (findLongestMatch a b alo ahi blo bhi) := by
    unfold findLongestMatch
    refine List.foldlRecOn (motive := fun p : Nat × Nat × Nat => p.2.2 = 0 ∨
      (alo ≤ p.1 ∧ p.1 + p.2.2 ≤ ahi ∧ blo ≤ p.2.1 ∧ p.2.1 + p.2.2 ≤ bhi))
      _ _ _ (Or.inl rfl) ?_
    intro best hbest p hp
    unfold lmStep
    by_cases hlt : best.2.2 < runLen a b p.1 p.2 ahi bhi
    · simp only [if_pos hlt]
      right
      obtain ⟨x, hx, hy⟩ := List.mem_flatMap.mp hp
      obtain ⟨y', hy', rfl⟩ := List.mem_map.mp hy
      obtain ⟨ix, hixn, hix⟩ := List.mem_range'.mp hx
      obtain ⟨iy, hiyn, hiy⟩ := List.mem_range'.mp hy'
      have hra := runLen_le_a a b x y' ahi bhi
      have hrb := runLen_le_b a b x y' ahi bhi
      dsimp only at hlt ⊢
      exact ⟨by omega, by omega, by omega, by omega⟩
    · simpa [if_neg hlt] using hbest
  intro i j k h
  rw [h] at H
  simpa using H

theorem blocksSum_append (l₁ l₂ : List (Nat × Nat × Nat)) :
    blocksSum (l₁ ++ l₂) = blocksSum l₁ + blocksSum l₂ := by
  simp [blocksSum, List.sum_append]

theorem blocksSum_matchingBlocksAux_le (a b : List Char) :
    ∀ (fuel alo ahi blo bhi : Nat),
      blocksSum (matchingBlocksAux a b fuel alo ahi blo bhi) ≤ ahi - alo ∧
        blocksSum (matchingBlocksAux a b fuel alo ahi blo bhi) ≤ bhi - blo := by
  intro fuel
  induction fuel with
  | zero => intro alo ahi blo bhi; simp [matchingBlocksAux, blocksSum]
  | succ n ih =>
    intro alo ahi blo bhi
    rcases hm : findLongestMatch a b alo ahi blo bhi with ⟨i, j, k⟩
    have hinv := findLongestMatch_inv a b alo ahi blo bhi i j k hm
    unfold matchingBlocksAux
    simp only [hm]
    by_cases hk : k = 0
    · simp [hk, blocksSum]
    · simp only [if_neg hk, blocksSum_append]
      have hL := ih alo i blo j
      have hR := ih (i + k) ahi (j + k) bhi
      have hcons : blocksSum ((i, j, k) :: matchingBlocksAux a b n (i + k) ahi (j + k) bhi) =
          k + blocksSum (matchingBlocksAux a b n (i + k) ahi (j + k) bhi) := by
        simp [blocksSum]
      rw [hcons]
      rcases hinv with h0 | ⟨h1, h2, h3, h4⟩
      · exact absurd h0 hk
      · omega

theorem blocksSum_le_a (a b : List Char) : blocksSum (matchingBlocks a b) ≤ a.length := by
  simpa using (blocksSum_matchingBlocksAux_le a b a.length 0 a.length 0 b.length).1

theorem blocksSum_le_b (a b : List Char) : blocksSum (matchingBlocks a b) ≤ b.length := by
  simpa using (blocksSum_matchingBlocksAux_le a b a.length 0 a.length 0 b.length).2

theorem seqMatchScore_nonneg (a b : List Char) : 0 ≤ seqMatchScore a b := by
  unfold seqMatchScore
  by_cases h : a.length + b.length = 0
  · simp [h]
  · simp only [if_neg h]
    apply div_nonneg
    · positivity
    · positivity

theorem seqMatchScore_le_one (a b : List Char) : seqMatchScore a b ≤ 1 := by
  unfold seqMatchScore
  by_cases h : a.length + b.length = 0
  · simp [h]
  · simp only [if_neg h]
    have hpos : (0 : ℚ) < (a.length : ℚ) + (b.length : ℚ) := by
      exact_mod_cast Nat.pos_of_ne_zero h
    rw [div_le_one hpos]
    have ha : (blocksSum (matchingBlocks a b) : ℚ) ≤ a.length := by
      exact_mod_cast blocksSum_le_a a b
    have hb : (blocksSum (matchingBlocks a b) : ℚ) ≤ b.length := by
      exact_mod_cast blocksSum_le_b a b
    linarith

theorem count_true_set (l : List Bool) : ∀ j, l.getD j true = false →
    (l.set j true).count true = l.count true + 1 := by
  induction l with
  | nil => intro j h; simp [List.getD] at h
  | cons x xs ih =>
    intro j h
    cases j with
    | zero =>
      simp only [List.getD_cons_zero] at h
      subst h
      simp [List.set, List.count_cons]
    | succ n =>
      simp only [List.getD_cons_succ] at h
      have hih := ih n h
      cases x <;> simp [List.set, List.count_cons, hih]

theorem findMatchIdx_flag (yang : List Char) (gf : List Bool) (c : Char) (low hi j : Nat)
    (h : findMatchIdx yang gf c low hi = some j) : gf.getD j true = false := by
  have hp := List.find?_some h
  simp only [Bool.and_eq_true, Bool.not_eq_true'] at hp
  exact hp.1.1

/-- Invariants of the Jaro matching phase: the `ying` flag list mirrors
`ying`; the number of `true` flags on each side equals the number of
matches added; the `yang` flag list keeps its length. -/
theorem jaroScanAux_spec (yang : List Char) (sr : Nat) :
    ∀ (l : List Char) (i : Nat) (gf : List Bool) (common : Nat),
      (jaroScanAux yang sr l i gf common).1.length = l.length ∧
      (jaroScanAux yang sr l i gf common).1.count true + common =
        (jaroScanAux yang sr l i gf common).2.2 ∧
      (jaroScanAux yang sr l i gf common).2.1.length = gf.length ∧
      (jaroScanAux yang sr l i gf common).2.1.count true + common =
        gf.count true + (jaroScanAux yang sr l i gf common).2.2 := by
  intro l
  induction l with
  | nil => intro i gf common; simp [jaroScanAux]
  | cons c rest ih =>
    intro i gf common
    unfold jaroScanAux
    rcases hf : findMatchIdx yang gf c (i - sr) (min (i + sr) (yang.length - 1)) with _ | j
    · simp only [hf]
      obtain ⟨ihl, ihc, ihgl, ihgc⟩ := ih (i + 1) gf common
      refine ⟨by simp [ihl], ?_, by exact ihgl, by exact ihgc⟩
      show List.count true (false :: (jaroScanAux yang sr rest (i + 1) gf common).1) +
          common = (jaroScanAux yang sr rest (i + 1) gf common).2.2
      simp only [List.count_cons]
      simp
      omega
    · simp only [hf]
      obtain ⟨ihl, ihc, ihgl, ihgc⟩ := ih (i + 1) (gf.set j true) (common + 1)
      have hflag := findMatchIdx_flag yang gf c _ _ _ hf
      have hset := count_true_set gf j hflag
      refine ⟨by simp [ihl], ?_, by rw [List.length_set] at ihgl; exact ihgl, ?_⟩
      · show List.count true (true ::
            (jaroScanAux yang sr rest (i + 1) (gf.set j true) (common + 1)).1) + common =
          (jaroScanAux yang sr rest (i + 1) (gf.set j true) (common + 1)).2.2
        simp only [List.count_cons]
        simp
        omega
      · show List.count true
            (jaroScanAux yang sr rest (i + 1) (gf.set j true) (common + 1)).2.1 + common =
          List.count true gf +
            (jaroScanAux yang sr rest (i + 1) (gf.set j true) (common + 1)).2.2
        rw [hset] at ihgc
        omega

theorem findFlagged_spec (gf : List Bool) (k j : Nat) (h : findFlagged gf k = some j) :
    gf.getD j false = true := by
  unfold findFlagged at h
  have hp := List.find?_some h
  exact hp

theorem transLoop_le (yang : List Char) (gf : List Bool) :
    ∀ (l : List (Char × Bool)) (k t : Nat),
      transLoop yang gf l k t ≤ t + l.countP (fun p => p.2) := by
  intro l
  induction l with
  | nil => intro k t; simp [transLoop]
  | cons p rest ih =>
    intro k t
    rcases p with ⟨c, f⟩
    unfold transLoop
    cases f with
    | false => simpa [List.countP_cons] using ih k t
    | true =>
      have hcp : List.countP (fun p => p.2) ((c, true) :: rest) =
          List.countP (fun p => p.2) rest + 1 := by
        simp [List.countP_cons]
      rcases hf : findFlagged gf k with _ | j
      · simp only [hf]
        have hrec := ih k t
        rw [hcp, if_pos (by trivial)]
        omega
      · simp only [hf]
        have hrec := ih (j + 1) (t + if c ≠ yang.getD j c then 1 else 0)
        have hb : (if c ≠ yang.getD j c then 1 else 0) ≤ 1 := by
          split <;> omega
        rw [hcp, if_pos (by trivial)]
        omega

theorem countP_zip_snd : ∀ (l1 : List Char) (l2 : List Bool), l1.length = l2.length →
    (l1.zip l2).countP (fun p => p.2) = l2.count true := by
  intro l1
  induction l1 with
  | nil =>
    intro l2 h
    cases l2 with
    | nil => simp
    | cons y ys => simp at h
  | cons x xs ih =>
    intro l2 h
    cases l2 with
    | nil => simp at h
    | cons y ys =>
      have hih := ih ys (by simpa using h)
      cases y <;> simp [List.countP_cons, List.count_cons, hih]

/-- The matched-character count is bounded by both lengths, and the (raw)
transposition count by the matched count. -/
theorem jaroCommon_le (ying yang : List Char) :
    jaroCommon ying yang ≤ ying.length ∧ jaroCommon ying yang ≤ yang.length ∧
      transLoop yang (jaroScan ying yang).2.1 (ying.zip (jaroScan ying yang).1) 0 0 ≤
        jaroCommon ying yang := by
  obtain ⟨hl, hc, hgl, hgc⟩ := jaroScanAux_spec yang (jaroSearchRange ying yang) ying 0
    (List.replicate yang.length false) 0
  have hcy : (jaroScan ying yang).1.count true = jaroCommon ying yang := by
    simpa [jaroScan, jaroCommon] using hc
  have hgy : (jaroScan ying yang).2.1.count true = jaroCommon ying yang := by
    have : (List.replicate yang.length false).count true = 0 := by
      simp [List.count_replicate]
    simpa [jaroScan, jaroCommon, this] using hgc
  refine ⟨?_, ?_, ?_⟩
  · calc jaroCommon ying yang = (jaroScan ying yang).1.count true := hcy.symm
      _ ≤ (jaroScan ying yang).1.length := List.count_le_length _ _
      _ = ying.length := by simpa [jaroScan] using hl
  · calc jaroCommon ying yang = (jaroScan ying yang).2.1.count true := hgy.symm
      _ ≤ (jaroScan ying yang).2.1.length := List.count_le_length _ _
      _ = yang.length := by simpa [jaroScan] using hgl
  · have hlen : ying.length = (jaroScan ying yang).1.length := by
      simpa [jaroScan] using hl.symm
    calc transLoop yang (jaroScan ying yang).2.1 (ying.zip (jaroScan ying yang).1) 0 0
        ≤ 0 + (ying.zip (jaroScan ying yang).1).countP (fun p => p.2) :=
          transLoop_le _ _ _ 0 0
      _ = (jaroScan ying yang).1.count true := by
          rw [Nat.zero_add]
          exact countP_zip_snd ying (jaroScan ying yang).1 hlen
      _ = jaroCommon ying yang := hcy

theorem jaroWeight_bounds (ying yang : List Char) (hy : ying.length ≠ 0)
    (hg : yang.length ≠ 0) (hc : jaroCommon ying yang ≠ 0) :
    0 ≤ jaroWeight ying yang ∧ jaroWeight ying yang ≤ 1 := by
  obtain ⟨h1, h2, h3⟩ := jaroCommon_le ying yang
  have ht : jaroTrans ying yang ≤ jaroCommon ying yang := by
    unfold jaroTrans
    omega
  have hyQ : (0 : ℚ) < (ying.length : ℚ) := by exact_mod_cast Nat.pos_of_ne_zero hy
  have hgQ : (0 : ℚ) < (yang.length : ℚ) := by exact_mod_cast Nat.pos_of_ne_zero hg
  have hcQ : (0 : ℚ) < (jaroCommon ying yang : ℚ) := by
    exact_mod_cast Nat.pos_of_ne_zero hc
  have h1Q : (jaroCommon ying yang : ℚ) ≤ (ying.length : ℚ) := by exact_mod_cast h1
  have h2Q : (jaroCommon ying yang : ℚ) ≤ (yang.length : ℚ) := by exact_mod_cast h2
  have htQ : (jaroTrans ying yang : ℚ) ≤ (jaroCommon ying yang : ℚ) := by exact_mod_cast ht
  have htn : (0 : ℚ) ≤ (jaroTrans ying yang : ℚ) := by positivity
  constructor
  · unfold jaroWeight
    have e1 : (0 : ℚ) ≤ (jaroCommon ying yang : ℚ) / (ying.length : ℚ) := by positivity
    have e2 : (0 : ℚ) ≤ (jaroCommon ying yang : ℚ) / (yang.length : ℚ) := by positivity
    have e3 : (0 : ℚ) ≤
        ((jaroCommon ying yang : ℚ) - (jaroTrans ying yang : ℚ)) /
          (jaroCommon ying yang : ℚ) := by
      apply div_nonneg _ (le_of_lt hcQ)
      linarith
    linarith
  · unfold jaroWeight
    have e1 : (jaroCommon ying yang : ℚ) / (ying.length : ℚ) ≤ 1 :=
      (div_le_one hyQ).mpr h1Q
    have e2 : (jaroCommon ying yang : ℚ) / (yang.length : ℚ) ≤ 1 :=
      (div_le_one hgQ).mpr h2Q
    have e3 : ((jaroCommon ying yang : ℚ) - (jaroTrans ying yang : ℚ)) /
        (jaroCommon ying yang : ℚ) ≤ 1 := by
      apply (div_le_one hcQ).mpr
      linarith
    linarith

theorem winklerPrefixLen_le (ying yang : List Char) : winklerPrefixLen ying yang ≤ 4 := by
  unfold winklerPrefixLen
  have h := commonRunLen_le_left (ying.take (min (min ying.length yang.length) 4))
    (yang.take (min (min ying.length yang.length) 4))
  have hl : (ying.take (min (min ying.length yang.length) 4)).length ≤ 4 := by
    simp [List.length_take]
  omega

theorem jaroWinkler_bounds (ying yang : List Char) :
    0 ≤ jaroWinkler ying yang ∧ jaroWinkler ying yang ≤ 1 := by
  unfold jaroWinkler
  by_cases h0 : ying.length = 0 ∨ yang.length = 0
  · rw [if_pos h0]
    norm_num
  · rw [if_neg h0]
    have hy : ying.length ≠ 0 := fun h => h0 (Or.inl h)
    have hg : yang.length ≠ 0 := fun h => h0 (Or.inr h)
    by_cases hc : jaroCommon ying yang = 0
    · rw [if_pos hc]
      norm_num
    · rw [if_neg hc]
      obtain ⟨hw0, hw1⟩ := jaroWeight_bounds ying yang hy hg hc
      by_cases hb : 7 / 10 < jaroWeight ying yang
      · rw [if_pos hb]
        have hpl : (winklerPrefixLen ying yang : ℚ) ≤ 4 := by
          exact_mod_cast winklerPrefixLen_le ying yang
        have hpl0 : (0 : ℚ) ≤ (winklerPrefixLen ying yang : ℚ) := by positivity
        constructor
        · nlinarith
        · nlinarith
      · rw [if_neg hb]
        exact ⟨hw0, hw1⟩

theorem similarity_score_bounds (a b : String) :
    0 ≤ similarity_score a b ∧ similarity_score a b ≤ 1 := by
  unfold similarity_score
  by_cases h0 : normalize_title a = "" ∨ normalize_title b = ""
  · rw [if_pos h0]
    norm_num
  · rw [if_neg h0]
    by_cases h1 : normalize_title a = normalize_title b
    · rw [if_pos h1]
      norm_num
    · rw [if_neg h1]
      constructor
      · exact le_trans (seqMatchScore_nonneg _ _) (le_max_left _ _)
      · exact max_le (seqMatchScore_le_one _ _)
          (jaroWinkler_bounds (normalize_title a).toList (normalize_title b).toList).2

/-- The exact strategy never matches: its query dies on the nonexistent
`title_en` column (`FieldError`, caught to `None`). -/
theorem match_by_exact_criteria_eq_none (db : DB) (title title_en : String)
    (release_year : Int) (movie_type : String) :
    match_by_exact_criteria db title title_en release_year movie_type = none := by
  unfold match_by_exact_criteria
  split <;> rfl

/-- The fuzzy strategy never matches: `item.title_en` dies on the first
candidate (`AttributeError`, caught to `None`), and with no candidates the
loop never runs. -/
theorem match_by_fuzzy_logic_eq_none (db : DB) (title title_en : String)
    (release_year : Int) (movie_type : String) :
    match_by_fuzzy_logic db title title_en release_year movie_type = none := by
  unfold match_by_fuzzy_logic
  split <;> rfl

/-- When the variation strategy (the only live one) also misses, the
resolution proceeds to `_create_movie`. -/
theorem find_or_get_movie_eq_create (db : DB) (title title_en : String)
    (release_year : Int) (movie_type : String)
    (h : match_by_title_variations db title title_en release_year movie_type = none) :
    find_or_get_movie db title title_en release_year movie_type =
      (create_movie db title title_en release_year movie_type).map
        (fun r => (r.1, true, r.2)) := by
  unfold find_or_get_movie
  rw [match_by_exact_criteria_eq_none, match_by_fuzzy_logic_eq_none, h]
  rcases hc : create_movie db title title_en release_year movie_type with e | ⟨m, db'⟩
  · simp [Except.map]
  · simp [Except.map]

/-- A hit of the variation loop comes from an entry whose variation list
contains the normalized title, and is the unique row matching
`title__icontains=base, year, type`. -/
theorem variationLookup_some (db : DB) (nt : String) (y : Int) (ty : String) :
    ∀ (entries : List (String × List String)) (m : Movie),
      variationLookup db nt y ty entries = some m →
      ∃ base variations, (base, variations) ∈ entries ∧ variations.contains nt ∧
        db.movies.filter (fun mv =>
          icontains mv.title base && mv.year == y && mv.type == ty) = [m] := by
  intro entries
  induction entries with
  | nil => intro m h; exact absurd h (by simp [variationLookup])
  | cons e rest ih =>
    intro m h
    rcases e with ⟨base, variations⟩
    unfold variationLookup at h
    by_cases hv : variations.contains nt
    · rw [if_pos hv] at h
      rcases hfil : db.movies.filter (fun mv =>
          icontains mv.title base && mv.year == y && mv.type == ty) with _ | ⟨m1, rest1⟩
      · rw [hfil] at h
        obtain ⟨b', v', hmem, hc, hf⟩ := ih m h
        exact ⟨b', v', List.mem_cons_of_mem _ hmem, hc, hf⟩
      · rcases rest1 with _ | ⟨m2, rest2⟩
        · rw [hfil] at h
          simp only [Option.some.injEq] at h
          subst h
          exact ⟨base, variations, List.mem_cons_self _ _, hv, hfil⟩
        · rw [hfil] at h
          obtain ⟨b', v', hmem, hc, hf⟩ := ih m h
          exact ⟨b', v', List.mem_cons_of_mem _ hmem, hc, hf⟩
    · rw [if_neg hv] at h
      obtain ⟨b', v', hmem, hc, hf⟩ := ih m h
      exact ⟨b', v', List.mem_cons_of_mem _ hmem, hc, hf⟩

/-- When the normalized title is registered in no entry, the variation loop
misses. -/
theorem variationLookup_none (db : DB) (nt : String) (y : Int) (ty : String) :
    ∀ (entries : List (String × List String)),
      (∀ p ∈ entries, ¬ p.2.contains nt = true) →
      variationLookup db nt y ty entries = none := by
  intro entries
  induction entries with
  | nil => intro _; simp [variationLookup]
  | cons e rest ih =>
    intro h
    rcases e with ⟨base, variations⟩
    unfold variationLookup
    rw [if_neg (h (base, variations) (List.mem_cons_self _ _))]
    exact ih (fun p hp => h p (List.mem_cons_of_mem _ hp))

/-- Characters of the tokens of `splitWsAux` come from the non-whitespace
input characters (or the pending accumulator). -/
theorem splitWsAux_chars (Q : Char → Prop) :
    ∀ (l acc : List Char), (∀ c ∈ l, ¬c.isWhitespace = true → Q c) → (∀ c ∈ acc, Q c) →
      ∀ w ∈ splitWsAux l acc, ∀ c ∈ w.toList, Q c := by
  intro l
  induction l with
  | nil =>
    intro acc _ hacc w hw c hc
    unfold splitWsAux at hw
    by_cases he : acc.isEmpty
    · rw [if_pos he] at hw
      exact absurd hw (by simp)
    · rw [if_neg he] at hw
      rcases List.mem_singleton.mp hw
      have : c ∈ acc.reverse := by simpa [String.toList] using hc
      exact hacc c (List.mem_reverse.mp this)
  | cons x rest ih =>
    intro acc hl hacc w hw c hc
    unfold splitWsAux at hw
    by_cases hws : x.isWhitespace
    · rw [if_pos hws] at hw
      by_cases he : acc.isEmpty
      · rw [if_pos he] at hw
        exact ih [] (fun d hd hnw => hl d (List.mem_cons_of_mem _ hd) hnw)
          (by simp) w hw c hc
      · rw [if_neg he] at hw
        rcases List.mem_cons.mp hw with rfl | hw'
        · have : c ∈ acc.reverse := by simpa [String.toList] using hc
          exact hacc c (List.mem_reverse.mp this)
        · exact ih [] (fun d hd hnw => hl d (List.mem_cons_of_mem _ hd) hnw)
            (by simp) w hw' c hc
    · rw [if_neg hws] at hw
      refine ih (x :: acc) (fun d hd hnw => hl d (List.mem_cons_of_mem _ hd) hnw)
        ?_ w hw c hc
      intro d hd
      rcases List.mem_cons.mp hd with rfl | hd'
      · exact hl d (List.mem_cons_self _ _) (by simp [hws])
      · exact hacc d hd'

theorem splitWs_chars (Q : Char → Prop) (l : List Char)
    (h : ∀ c ∈ l, ¬c.isWhitespace = true → Q c) :
    ∀ w ∈ splitWs l, ∀ c ∈ w.toList, Q c :=
  splitWsAux_chars Q l [] h (by simp)

/-- Characters of a space-join are token characters or the space itself. -/
theorem joinSpace_chars (Q : Char → Prop) (hsp : Q ' ') :
    ∀ ws : List String, (∀ w ∈ ws, ∀ c ∈ w.toList, Q c) →
      ∀ c ∈ (joinSpace ws).toList, Q c := by
  intro ws
  induction ws with
  | nil => intro _ c hc; exact absurd hc (by simp [joinSpace, String.toList])
  | cons w rest ih =>
    intro h c hc
    cases rest with
    | nil =>
      exact h w (List.mem_singleton.mpr rfl) c (by simpa [joinSpace] using hc)
    | cons v rest' =>
      have hc' : c ∈ w.toList ++ ' ' :: (joinSpace (v :: rest')).toList := by
        simpa [joinSpace, String.toList] using hc
      rcases List.mem_append.mp hc' with h1 | h2
      · exact h w (List.mem_cons_self _ _) c h1
      · rcases List.mem_cons.mp h2 with rfl | h3
        · exact hsp
        · exact ih (fun u hu => h u (List.mem_cons_of_mem _ hu)) c h3

/-- Every character of a normalized title is a word character or a space:
the `re.sub` step replaces the rest with spaces and the joins only insert
spaces. -/
theorem normalize_title_chars (t : String) :
    ∀ c ∈ (normalize_title t).toList, isWordChar c = true ∨ c = ' ' := by
  unfold normalize_title
  by_cases h0 : t = ""
  · rw [if_pos h0]
    intro c hc
    exact absurd hc (by simp [String.toList])
  · rw [if_neg h0]
    intro c hc
    set subbed := (pyStrip (pyLower t)).toList.map
      (fun c => if isWordChar c || c.isWhitespace then c else ' ') with hsub
    have hsubchars : ∀ d ∈ subbed, ¬d.isWhitespace = true → isWordChar d = true := by
      intro d hd hnw
      rw [hsub] at hd
      obtain ⟨e, _, he⟩ := List.mem_map.mp hd
      by_cases hw : isWordChar e || e.isWhitespace
      · rw [if_pos hw] at he
        subst he
        rcases Bool.or_eq_true_iff.mp hw with h | h
        · exact h
        · exact absurd h hnw
      · rw [if_neg hw] at he
        subst he
        exact absurd (by decide : (' ' : Char).isWhitespace = true) hnw
    have hcollapsed : ∀ d ∈ (joinSpace (splitWs subbed)).toList,
        isWordChar d = true ∨ d = ' ' := by
      apply joinSpace_chars (fun e => isWordChar e = true ∨ e = ' ') (Or.inr rfl)
      intro w hw d hd
      exact Or.inl (splitWs_chars (fun e => isWordChar e = true) subbed hsubchars w hw d hd)
    refine joinSpace_chars (fun e => isWordChar e = true ∨ e = ' ')
      (Or.inr rfl) _ ?_ c hc
    intro w hw d hd
    have hw' : w ∈ splitWs (joinSpace (splitWs subbed)).toList := List.mem_of_mem_filter hw
    exact splitWs_chars (fun e => isWordChar e = true ∨ e = ' ')
      (joinSpace (splitWs subbed)).toList
      (fun e he _ => hcollapsed e he) w hw' d hd

/-!
Concrete scenarios used by the claim theorems. -/

def interstellarM : Movie := ⟨0, "Interstellar", 2014, "movie"⟩

def dbInterstellar : DB := ⟨[interstellarM], [], 1, 0⟩

/-- A store that already holds the `(filimo, m1)` source mapping, for
exercising `_create_source` on a duplicate listing. -/
def dbWithMapping : DB := ⟨[⟨0, "X", 2000, "movie"⟩], [⟨0, 0, "filimo", "m1", "", none⟩], 1, 1⟩

/-- Stored row for the C2 scenario: it carries the very `(title, year)`
pair the incoming record would be created with. -/
def matrixRow : Movie := ⟨0, "The Matrix", 1999, "movie"⟩

def dbMatrixRow : DB := ⟨[matrixRow], [], 1, 0⟩

def driveM : Movie := ⟨0, "Drive", 2011, "movie"⟩

def dbDrive : DB := ⟨[driveM], [], 1, 0⟩

/-- Stored base item for the variation scenario. -/
def movVar : Movie := ⟨0, "متری شیش و نیم", 2019, "movie"⟩

def dbVar : DB := ⟨[movVar], [], 1, 0⟩

/-- Stored item for the C10 scenario. -/
def movAaa : Movie := ⟨0, "Aaa", 2000, "movie"⟩

def dbAaa : DB := ⟨[movAaa], [], 1, 0⟩

/-- One possible behavior of the pipeline's matcher
(`ContentMatcher.find_matching_item` does not exist in the repository, so
the C6/C9 theorems quantify over every matcher): this one reports a match
with the stored Drive item, instantiating the match path. -/
def stubMatcher : String → Int → String → Option String → Option Movie :=
  fun _ _ _ _ => some driveM

def driveAdapter : Adapter := ⟨"Drive", some 2011, none, some "movie", some "d1", ""⟩

/-- A cache already holding a (stale) entry for the Drive record. -/
def poisonedCache : Cache := [("match:Drive:2011", "999")]

/-- A cache already holding a (stale) entry for the variation record. -/
def cacheVar : Cache := [("match:متری شیش و نیم:2019", "999")]

/-- C1: the spec promises idempotent re-ingestion — the second resolution
of the identical record returns `wasContentCreated = false`, raises no
error, and upserts the source mapping as a no-op.  The code cannot even
complete the *first* ingest: with an empty store every strategy misses
(exact and fuzzy are dead on the missing `title_en` column, "interstellar"
is no registered variation) and `_create_movie` raises `TypeError` —
`Movie.objects.create(title_en=...)` names a field `models.py` does not
declare — so the transaction rolls back and neither a CanonicalItem nor a
SourceMapping is ever persisted; repeating the call from the unchanged
state fails identically.  Independently, `_create_source` is an
unconditional INSERT (the `update_or_create` upsert is commented out,
contradicting its own docstring), so on a store that already holds the
`(platform, source_id)` mapping it raises `IntegrityError` instead of
being a no-op.  The theorem evaluates both failures. -/
theorem claim_idempotent_reingest_raises :
    process_scraped_content emptyDB "Interstellar" "Interstellar" 2014 "movie"
        "filimo" "m1" "" none = .error .typeError ∧
    create_source dbWithMapping 0 "filimo" "m1" "" none = .error .integrityError := by
  constructor
  · decide
  · decide

/-- C2: the claim says a uniqueness-constraint violation on create is
caught and converted into a re-run of the matching pipeline.  The engine's
create path never reaches the constraint: `Movie.objects.create` is called
with the `title_en` keyword, which raises `TypeError` during model
construction, before any SQL — and neither `_create_movie` nor
`find_or_get_movie` catches anything.  The theorem evaluates the code at
the claimed conflict situation: a stored row already carries the record's
`(title, year)` (second conjunct), every strategy misses, and the
resolution surfaces `TypeError` — no `IntegrityError` is ever raised on
this path, no conflict is caught, and no retry exists. -/
theorem claim_conflict_never_reached :
    find_or_get_movie dbMatrixRow "The Matrix" "zzz" 1999 "movie" =
      .error .typeError ∧
    (∃ m ∈ dbMatrixRow.movies, m.title = "The Matrix" ∧ m.year = 1999) := by
  exact ⟨by decide, ⟨matrixRow, by decide, rfl, rfl⟩⟩

/-- C3: the spec's exact strategy ("matches a CanonicalItem whose year
equals exactly and whose normalized title equals the scraped normalized
title") does not exist in the running code: the query filters on
`title_en__iexact`, a column `models.py` does not define, so
`Movie.objects.filter` raises `FieldError`, the broad `except` returns
`None`, and the strategy never matches anything (first conjunct, for every
store and record).  The spec's Interstellar example therefore does not
resolve to the stored item: with `("Interstellar", 2014)` stored, the
record `title="interstellar", release_year=2014` misses every strategy
and the resolution raises `TypeError` in `_create_movie` instead of
returning the item with `wasContentCreated = false` (second conjunct). -/
theorem claim_exact_strategy_dead :
    (∀ (db : DB) (t te : String) (y : Int) (ty : String),
      match_by_exact_criteria db t te y ty = none) ∧
    find_or_get_movie dbInterstellar "interstellar" "interstellar" 2014 "movie" =
      .error .typeError := by
  exact ⟨match_by_exact_criteria_eq_none, by decide⟩

/-- C4: the spec's fuzzy strategy (±1-year candidate window, 100-row cap,
similarity scoring against each candidate, threshold acceptance,
first-seen tie-break) does not exist in the running code: the candidate
queryset uses valid columns, but the loop's very first read of
`item.title_en` raises `AttributeError` — `models.py` declares no such
field — which the broad `except` catches, returning `None`; with no
candidates the loop never runs and `best_match` is already `None`.  So the
fuzzy strategy never scores a candidate and never matches (first
conjunct).  The claim's Drive boundary example also fails: the record
two years away matches nothing, but no new item is created either — the
resolution raises `TypeError` in `_create_movie` (second conjunct). -/
theorem claim_fuzzy_strategy_dead :
    (∀ (db : DB) (t te : String) (y : Int) (ty : String),
      match_by_fuzzy_logic db t te y ty = none) ∧
    find_or_get_movie dbDrive "Drive" "Drive" 2013 "movie" = .error .typeError := by
  exact ⟨match_by_fuzzy_logic_eq_none, by decide⟩

/-- C5 counterexample: the normalized title "metri shish o nim" is a
registered variation of the stored base item, whose year matches — yet the
fuzzy strategy returns no match for the record: no variation boost to
≥ 0.9 exists anywhere in `_match_by_fuzzy_logic` (in the running code the
fuzzy strategy cannot match at all: its scoring dies on the missing
`title_en` attribute and is caught to `None`). -/
theorem claim_variation_boost_counterexample :
    (title_variations.any
      (fun p => p.2.contains (normalize_title "metri shish o nim"))) = true ∧
    movVar.year = 2019 ∧
    match_by_fuzzy_logic dbVar "متری شیش و نیم" "metri shish o nim" 2019 "movie" =
      none := by
  refine ⟨by decide, rfl, by decide⟩

/-- C5 (amended): a record whose normalized `title_en` is a registered
alternate rendering resolves to the base item through the variation
strategy (the hit has matching year and kind and its stored title contains
the base title), even though similarity scoring alone could never reach
the fuzzy threshold; the fuzzy strategy receives no boost — it matches
nothing at all (its candidate scoring dies on the missing `title_en`
attribute, caught to `None`). -/
theorem claim_variation_strategy_amended :
    (∀ db t te y ty m, match_by_title_variations db t te y ty = some m →
      m ∈ db.movies ∧ m.year = y ∧ m.type = ty ∧
        ∃ base variations, (base, variations) ∈ title_variations ∧
          variations.contains (normalize_title te) = true ∧
          icontains m.title base = true) ∧
    (∀ (db : DB) (t te : String) (y : Int) (ty : String),
      match_by_fuzzy_logic db t te y ty = none) ∧
    find_or_get_movie dbVar "متری شیش و نیم" "metri shish o nim" 2019 "movie" =
      .ok (movVar, false, dbVar) := by
  refine ⟨?_, match_by_fuzzy_logic_eq_none, by decide⟩
  intro db t te y ty m h
  unfold match_by_title_variations at h
  by_cases hy : y = 0
  · rw [if_pos hy] at h
    exact absurd h (by simp)
  · rw [if_neg hy, if_pos (Or.inr trivial)] at h
    obtain ⟨base, variations, hmem, hcon, hfil⟩ :=
      variationLookup_some db _ y ty title_variations m h
    have hm : m ∈ db.movies.filter (fun mv =>
        icontains mv.title base && mv.year == y && mv.type == ty) := by
      rw [hfil]
      exact List.mem_singleton.mpr rfl
    obtain ⟨hmm, hp⟩ := List.mem_filter.mp hm
    simp only [Bool.and_eq_true, beq_iff_eq] at hp
    exact ⟨hmm, hp.1.2, hp.2, base, variations, hmem, hcon, hp.1.1⟩

theorem claim_variation_strategy_amended_witness :
    movVar ∈ dbVar.movies ∧ movVar.year = 2019 ∧ movVar.type = "movie" := by
  obtain ⟨hm, hy, ht, _⟩ := claim_variation_strategy_amended.1 dbVar "متری شیش و نیم"
    "metri shish o nim" 2019 "movie" movVar (by decide)
  exact ⟨hm, hy, ht⟩

/-- C6 counterexample: successful resolutions that match an existing item
and leave the cache alone.  On the engine path the variation record
resolves to the stored base item while a stale cache entry for that very
record is neither consulted (the stale id 999 is ignored, the matched item
is id 0) nor refreshed; on the pipeline path (instantiated with one
possible matcher, since the imported `ContentMatcher` does not exist) the
resolution likewise returns with the poisoned cache byte-for-byte
unchanged — the entry is rewritten only on creation. -/
theorem claim_cache_counterexample :
    (("match:متری شیش و نیم:2019", "999") ∈ cacheVar) ∧
    process_scraped_content_sys ⟨dbVar, cacheVar⟩ "متری شیش و نیم" "metri shish o nim"
        2019 "movie" "filimo" "v9" "" none =
      .ok (movVar, false, ⟨0, 0, "filimo", "v9", "", none⟩,
        ⟨⟨[movVar], [⟨0, 0, "filimo", "v9", "", none⟩], 1, 1⟩, cacheVar⟩) ∧
    (("match:Drive:2011", "999") ∈ poisonedCache) ∧
    find_or_create_item_with_matching stubMatcher dbDrive poisonedCache driveAdapter
      "filimo" = .ok (driveM, dbDrive, poisonedCache) := by
  refine ⟨by decide, by decide, by decide, by decide⟩

/-- C6 (amended): no resolution path consults the match cache.
`process_scraped_content` performs no cache operation at all (its outcome
and the final cache are those of a resolution against the store alone);
the pipeline's resolution outcome is independent of the cache contents;
and the pipeline writes the `match:<title>:<year>` entry only on the
creation path — a successful match returns with the cache untouched. -/
theorem claim_cache_amended :
    (∀ db cache t te y ty p sid u rp,
      process_scraped_content_sys ⟨db, cache⟩ t te y ty p sid u rp =
        (process_scraped_content db t te y ty p sid u rp).map
          (fun r => (r.1, r.2.1, r.2.2.1, ⟨r.2.2.2, cache⟩))) ∧
    (∀ f db c1 c2 a p,
      (find_or_create_item_with_matching f db c1 a p).map (fun r => (r.1, r.2.1)) =
        (find_or_create_item_with_matching f db c2 a p).map (fun r => (r.1, r.2.1))) ∧
    (∀ f db cache a p item y,
      pyOrIntOpt a.release_year a.year = some y →
      ¬(pyStrip a.title = "" ∨ y = 0) →
      f (pyStrip a.title) y p a.source_id = some item →
      find_or_create_item_with_matching f db cache a p = .ok (item, db, cache)) ∧
    (∀ f db cache a p movie db' y,
      pyOrIntOpt a.release_year a.year = some y →
      ¬(pyStrip a.title = "" ∨ y = 0) →
      f (pyStrip a.title) y p a.source_id = none →
      create_movie_pipeline db (pyStrip a.title) y (a.type.getD "movie") =
        .ok (movie, db') →
      find_or_create_item_with_matching f db cache a p =
        .ok (movie, db', cacheSet cache
          ("match:" ++ pyStrip a.title ++ ":" ++ toString y) (toString movie.id))) := by
  refine ⟨?_, ?_, ?_, ?_⟩
  · intro db cache t te y ty p sid u rp
    unfold process_scraped_content_sys
    rcases h : process_scraped_content db t te y ty p sid u rp with e | ⟨m, c, src, db'⟩
    · simp [Except.map]
    · simp [Except.map]
  · intro f db c1 c2 a p
    unfold find_or_create_item_with_matching
    rcases hy : pyOrIntOpt a.release_year a.year with _ | y
    · simp [Except.map]
    · dsimp only
      by_cases hv : pyStrip a.title = "" ∨ y = 0
      · rw [if_pos hv, if_pos hv]
      · rw [if_neg hv, if_neg hv]
        rcases hf : f (pyStrip a.title) y p a.source_id with _ | item
        · rcases hc : create_movie_pipeline db (pyStrip a.title) y (a.type.getD "movie")
            with e | ⟨movie, db'⟩
          · simp [Except.map]
          · simp [Except.map]
        · simp [Except.map]
  · intro f db cache a p item y hy hv hf
    unfold find_or_create_item_with_matching
    rw [hy]
    dsimp only
    rw [if_neg hv, hf]
  · intro f db cache a p movie db' y hy hv hf hc
    unfold find_or_create_item_with_matching
    rw [hy]
    dsimp only
    rw [if_neg hv, hf, hc]

theorem claim_cache_amended_witness :
    find_or_create_item_with_matching stubMatcher dbDrive [("k", "v")] driveAdapter
      "filimo" = .ok (driveM, dbDrive, [("k", "v")]) := by
  exact claim_cache_amended.2.2.1 stubMatcher dbDrive [("k", "v")] driveAdapter
    "filimo" driveM 2011 (by decide) (by decide) (by decide)

/-- C7: the similarity score always lies in `[0, 1]`; it is `0.0` whenever
either normalized form is empty (this case takes priority: two empty
normalized forms, though equal, score 0.0); it is `1.0` whenever both
normalized forms are nonempty and equal; otherwise it is the maximum of
the `SequenceMatcher` ratio and the Jaro-Winkler similarity of the
normalized forms. -/
theorem claim_similarity_contract (a b : String) :
    0 ≤ similarity_score a b ∧ similarity_score a b ≤ 1 ∧
    ((normalize_title a = "" ∨ normalize_title b = "") → similarity_score a b = 0) ∧
    (¬(normalize_title a = "" ∨ normalize_title b = "") →
      normalize_title a = normalize_title b → similarity_score a b = 1) ∧
    (¬(normalize_title a = "" ∨ normalize_title b = "") →
      normalize_title a ≠ normalize_title b →
      similarity_score a b =
        max (seqMatchScore (normalize_title a).toList (normalize_title b).toList)
          (jaroWinkler (normalize_title a).toList (normalize_title b).toList)) := by
  refine ⟨(similarity_score_bounds a b).1, (similarity_score_bounds a b).2, ?_, ?_, ?_⟩
  · intro h
    unfold similarity_score
    rw [if_pos h]
  · intro h he
    unfold similarity_score
    rw [if_neg h, if_pos he]
  · intro h hne
    unfold similarity_score
    rw [if_neg h, if_neg hne]

theorem claim_similarity_contract_witness :
    similarity_score "the" "abc" = 0 ∧ similarity_score "Abc!" "abc" = 1 := by
  constructor
  · exact (claim_similarity_contract "the" "abc").2.2.1 (Or.inl (by decide))
  · exact (claim_similarity_contract "Abc!" "abc").2.2.2.1 (by decide) (by decide)

/-- C8 counterexample: the claim says normalization *strips* every
character that is neither a word character nor whitespace; the code's
`re.sub(r"[^\w\s]", " ", title)` instead *replaces* each such character
with a space, and the results differ on a word-internal apostrophe: the
code yields `"can t"` where stripping (modelled from the spec's wording)
yields `"cant"`. -/
theorem claim_normalize_counterexample :
    normalize_title "can't" = "can t" ∧
    normalize_title_specStripping "can't" = "cant" ∧
    ("can t" : String) ≠ "cant" := by
  refine ⟨by decide, by decide, by decide⟩

/-- C8 (amended): normalize is a pure function that lowercases, *replaces*
every character that is neither a word character nor whitespace with a
space, collapses internal whitespace, removes the configured stop-words and
returns the empty string on empty input; so every output character is a
word character or a space, the three Matrix renderings normalize to the
same string, and the word-internal apostrophe case gives `"can t"`. -/
theorem claim_normalize_amended :
    (∀ t, ∀ c ∈ (normalize_title t).toList, isWordChar c = true ∨ c = ' ') ∧
    normalize_title "The Matrix!" = "matrix" ∧
    normalize_title "the matrix" = "matrix" ∧
    normalize_title "Matrix" = "matrix" ∧
    normalize_title "" = "" ∧
    normalize_title "can't" = "can t" := by
  exact ⟨normalize_title_chars, by decide, by decide, by decide, by decide, by decide⟩

theorem claim_normalize_amended_witness :
    (isWordChar 'm' = true ∨ 'm' = ' ') ∧ normalize_title "" = "" :=
  ⟨claim_normalize_amended.1 "Matrix" 'm' (by decide), claim_normalize_amended.2.2.2.2.1⟩

/-- C9 counterexample: the engine-path resolution
(`ContentManager.process_scraped_content`) performs no validation at all.
A record with empty titles and a missing (falsy, 0) release year is not
rejected by any validation check: every strategy runs and misses on the
falsy year, `_create_movie` is invoked, and the error the resolution
surfaces is that creation attempt's `TypeError` — not a validation error
raised before matching and creation, as the claim requires (the pipeline
path's validation failure is `PipeError.valueError`; no such failure
exists on this path). -/
theorem claim_validation_counterexample :
    process_scraped_content emptyDB "" "" 0 "movie" "filimo" "s1" "" none =
      .error DbError.typeError := by
  decide

/-- C9 (amended): only the scraper-pipeline path validates: with a blank
(stripped) title or a falsy year it raises `ValueError` before the
matcher, the store or the cache is touched, whatever the matcher would do,
so nothing is persisted for that record.  The ContentManager path performs
no validation: with a falsy year all three strategies miss and the
resolution proceeds to the `_create_movie` call (which then fails with
`TypeError` rather than with any validation error). -/
theorem claim_validation_amended :
    (∀ f db cache a p,
      (pyStrip a.title = "" ∨ pyOrIntOpt a.release_year a.year = none ∨
        pyOrIntOpt a.release_year a.year = some 0) →
      find_or_create_item_with_matching f db cache a p = .error .valueError) ∧
    (∀ db t te ty, match_by_exact_criteria db t te 0 ty = none ∧
      match_by_fuzzy_logic db t te 0 ty = none ∧
      match_by_title_variations db t te 0 ty = none ∧
      find_or_get_movie db t te 0 ty =
        (create_movie db t te 0 ty).map (fun r => (r.1, true, r.2))) := by
  constructor
  · intro f db cache a p h
    unfold find_or_create_item_with_matching
    rcases hy : pyOrIntOpt a.release_year a.year with _ | y
    · rfl
    · dsimp only
      rcases h with h | h | h
      · rw [if_pos (Or.inl h)]
      · exact absurd hy (by rw [h]; simp)
      · rw [hy] at h
        simp only [Option.some.injEq] at h
        rw [if_pos (Or.inr h)]
  · intro db t te ty
    have hv : match_by_title_variations db t te 0 ty = none := by
      unfold match_by_title_variations
      rw [if_pos rfl]
    exact ⟨match_by_exact_criteria_eq_none db t te 0 ty,
      match_by_fuzzy_logic_eq_none db t te 0 ty, hv,
      find_or_get_movie_eq_create db t te 0 ty hv⟩

theorem claim_validation_amended_witness :
    find_or_create_item_with_matching stubMatcher dbDrive poisonedCache
      ⟨"   ", some 2011, none, some "movie", some "d1", ""⟩ "filimo" =
      .error .valueError := by
  exact claim_validation_amended.1 stubMatcher dbDrive poisonedCache
    ⟨"   ", some 2011, none, some "movie", some "d1", ""⟩ "filimo"
    (Or.inl (by decide))

/-- C10: a record whose `title_en` is the empty string can never match an
existing item through any strategy, and resolution always reaches the
creation call — never a native-title fallback.  In the running code the
exact and fuzzy strategies return `None` for *every* record (their
`title_en` column/attribute accesses raise and are caught), the variation
strategy normalizes the empty `title_en` to the empty key, which no
registered variation list contains, so it misses too and is independent of
the native title; the similarity scorer maps the empty title to 0.0
against everything; and `find_or_get_movie` proceeds to `_create_movie`
(whose `TypeError` the concrete instance exhibits). -/
theorem claim_empty_title_en_never_matches :
    (∀ (db : DB) (t : String) (y : Int) (ty : String),
      match_by_exact_criteria db t "" y ty = none) ∧
    (∀ (db : DB) (t : String) (y : Int) (ty : String),
      match_by_fuzzy_logic db t "" y ty = none) ∧
    (∀ (db : DB) (t : String) (y : Int) (ty : String),
      match_by_title_variations db t "" y ty = none) ∧
    (∀ (db : DB) (t1 t2 : String) (y : Int) (ty : String),
      match_by_title_variations db t1 "" y ty = match_by_title_variations db t2 "" y ty) ∧
    (∀ x, similarity_score "" x = 0) ∧
    (∀ (db : DB) (t : String) (y : Int) (ty : String),
      find_or_get_movie db t "" y ty =
        (create_movie db t "" y ty).map (fun r => (r.1, true, r.2))) ∧
    find_or_get_movie dbAaa "Bbb" "" 2000 "movie" = .error .typeError := by
  have hvar : ∀ (db : DB) (t : String) (y : Int) (ty : String),
      match_by_title_variations db t "" y ty = none := by
    intro db t y ty
    unfold match_by_title_variations
    by_cases hy : y = 0
    · rw [if_pos hy]
    · rw [if_neg hy, if_pos (Or.inr trivial)]
      apply variationLookup_none
      decide
  refine ⟨fun db t y ty => match_by_exact_criteria_eq_none db t "" y ty,
    fun db t y ty => match_by_fuzzy_logic_eq_none db t "" y ty,
    hvar, fun db t1 t2 y ty => by rw [hvar, hvar], ?_,
    fun db t y ty => find_or_get_movie_eq_create db t "" y ty (hvar db t y ty),
    by decide⟩
  intro x
  unfold similarity_score
  rw [if_pos (Or.inl (by decide))]

example : normalize_title "The Matrix!" = "matrix" := by decide
example : normalize_title "the matrix" = "matrix" := by decide
example : normalize_title "Matrix" = "matrix" := by decide
example : normalize_title "" = "" := by decide
example : normalize_title "can't" = "can t" := by decide
example : normalize_title_specStripping "can't" = "cant" := by decide
example : normalize_title "Interstellar" = "interstellar" := by decide

end VodScraper
